import Mathlib

/-!
Verification of the `link-many` dotbot plugin (`link_many.py`).

The plugin reconciles "every file inside a source directory should be
symbolically linked into a destination directory" against an actual
filesystem.  We shallow-embed the plugin over an explicit filesystem
model: a finite association list from path strings to nodes (regular
file, directory, or symbolic link storing a target string).  The
`os`/`shutil` primitives the code uses are modelled with their POSIX
semantics (`os.path.exists` follows symbolic links and reports `False`
for a dangling link; `os.path.islink`/`os.readlink` inspect the link
itself; `os.symlink` fails when the destination already exists or its
parent directory is missing; `shutil.rmtree` removes a whole subtree).
Spurious OS errors (permissions etc.) are modelled by an explicit
error-injection environment `OsEnv`.  Library path functions that the
code calls (`os.path.expanduser`, `os.path.expandvars`,
`os.path.relpath`) are kept abstract as fields of the context `Ctx`;
the purely syntactic ones (`os.path.join`, `os.path.dirname`,
`os.path.basename`) are modelled concretely.
-/

namespace LinkMany

/-! ### Path string helpers (modelling `posixpath`) -/

/-- Boolean test that `pre` is a prefix of the string `s` (character-wise). -/
def sStarts (pre s : String) : Bool :=
  pre.data.isPrefixOf s.data

/-- Drop all trailing `'/'` characters (Python `str.rstrip('/')`). -/
def rstripSlash (s : List Char) : List Char :=
  ((s.reverse).dropWhile (fun c => c = '/')).reverse

/-- `os.path.basename`: everything after the last `'/'` (the whole string
when there is no `'/'`). -/
def basename (p : String) : String :=
  ⟨((p.data.reverse).takeWhile (fun c => c ≠ '/')).reverse⟩

/-- `os.path.dirname`: everything up to and excluding the last `'/'`;
`"/x"` has dirname `"/"`, a slash-free string has dirname `""`. -/
def dirname (p : String) : String :=
  let head := ((p.data.reverse).dropWhile (fun c => c ≠ '/')).reverse
  if head ≠ [] ∧ head.any (fun c => c ≠ '/') then ⟨rstripSlash head⟩ else ⟨head⟩

/-- `os.path.join a b` for two components: an absolute `b` discards `a`;
otherwise the components are separated by a single `'/'`. -/
def pjoin (a b : String) : String :=
  if sStarts "/" b then b
  else if a = "" then b
  else if a.data.getLast? = some '/' then a ++ b
  else a ++ "/" ++ b

/-- Strip exactly one leading dot (the `path[1:]` step of
`_default_source`). -/
def dotStrip (s : String) : String :=
  if sStarts "." s then ⟨s.data.drop 1⟩ else s

/-! ### Filesystem model -/

/-- A filesystem node: regular file, directory, or symbolic link storing
a target string. -/
inductive FNode where
  | file : FNode
  | dir : FNode
  | symlink (target : String) : FNode
deriving DecidableEq, Repr

/-- A filesystem: finite association list from (absolute) path strings
to nodes. -/
abbrev FS := List (String × FNode)

/-- Look up the node stored at path `p` (`lstat`-like: does not follow
symbolic links). -/
def lookupNode : FS → String → Option FNode
  | [], _ => none
  | kn :: rest, p => if kn.1 = p then some kn.2 else lookupNode rest p

/-- Remove the binding of path `p`. -/
def eraseKey (fs : FS) (p : String) : FS :=
  fs.filter (fun kn => kn.1 ≠ p)

/-- Is `k` strictly below directory `q` (any depth)? -/
def underPath (q k : String) : Bool :=
  (q.data ++ ['/']).isPrefixOf k.data

/-- If `k` is an immediate child of directory `q`, its name; `none`
otherwise. -/
def childName (q k : String) : Option String :=
  let pre := q.data ++ ['/']
  if pre.isPrefixOf k.data then
    let rest := k.data.drop pre.length
    if rest ≠ [] ∧ ¬ rest.contains '/' then some ⟨rest⟩ else none
  else none

/-- Where the stored target `t` of a symbolic link at `p` points:
absolute targets stand alone, relative ones are resolved against the
link's directory. -/
def resolveTarget (p t : String) : String :=
  if sStarts "/" t then t else pjoin (dirname p) t

/-- Follow the chain of symbolic links starting at `p` until a
non-link node (fuel-bounded; exhausting fuel models `ELOOP`). -/
def resolvePath (fs : FS) : Nat → String → Option String
  | 0, _ => none
  | fuel + 1, p =>
    match lookupNode fs p with
    | some (.symlink t) => resolvePath fs fuel (resolveTarget p t)
    | some _ => some p
    | none => none

/-- Resolve `p` to the path of its final non-link node, if any.  An
acyclic chain visits pairwise distinct existing paths, so `length + 1`
fuel suffices; a longer chain revisits a path and loops (`ELOOP`). -/
def resolveFinal (fs : FS) (p : String) : Option String :=
  resolvePath fs (fs.length + 1) p

/-! ### The `os` / `shutil` primitives used by the plugin -/

/-- `os.path.exists`: follows symbolic links; `false` on a dangling
link. -/
def osExists (fs : FS) (p : String) : Bool :=
  (resolveFinal fs p).isSome

/-- `os.path.islink`. -/
def osIslink (fs : FS) (p : String) : Bool :=
  match lookupNode fs p with
  | some (.symlink _) => true
  | _ => false

/-- `os.readlink` (total here; the code only calls it behind an
`islink` guard). -/
def osReadlink (fs : FS) (p : String) : String :=
  match lookupNode fs p with
  | some (.symlink t) => t
  | _ => ""

/-- `os.path.isdir`: follows symbolic links. -/
def osIsdir (fs : FS) (p : String) : Bool :=
  match resolveFinal fs p with
  | some q =>
    match lookupNode fs q with
    | some .dir => true
    | _ => false
  | none => false

/-- `os.listdir`: the names of the immediate children of the directory
`p` resolves to. -/
def osListdir (fs : FS) (p : String) : List String :=
  match resolveFinal fs p with
  | some q => fs.filterMap (fun kn => childName q kn.1)
  | none => []

/-- Injected OS-level failures (permissions, I/O errors, …): each field
says whether the corresponding syscall spuriously fails on its
arguments. -/
structure OsEnv where
  failUnlink : String → Bool
  failRemove : String → Bool
  failRmtree : String → Bool
  failMakedirs : String → Bool
  failSymlink : String → String → Bool

/-- The error-free OS environment. -/
def noErr : OsEnv :=
  ⟨fun _ => false, fun _ => false, fun _ => false, fun _ => false, fun _ _ => false⟩

/-- `os.unlink`: removes a non-directory node. -/
def osUnlink (env : OsEnv) (fs : FS) (p : String) : Option FS :=
  if env.failUnlink p then none
  else
    match lookupNode fs p with
    | some .dir => none
    | some _ => some (eraseKey fs p)
    | none => none

/-- `os.remove`: same model as `os.unlink`. -/
def osRemove (env : OsEnv) (fs : FS) (p : String) : Option FS :=
  if env.failRemove p then none
  else
    match lookupNode fs p with
    | some .dir => none
    | some _ => some (eraseKey fs p)
    | none => none

/-- `shutil.rmtree`: removes a real directory together with everything
below it; raises on anything else. -/
def osRmtree (env : OsEnv) (fs : FS) (p : String) : Option FS :=
  if env.failRmtree p then none
  else
    match lookupNode fs p with
    | some .dir => some (fs.filter (fun kn => ¬ (kn.1 = p ∨ underPath p kn.1 = true)))
    | _ => none

/-- `os.symlink target dest`: fails when `dest` already exists (as any
node) or its parent does not resolve to a directory. -/
def osSymlink (env : OsEnv) (fs : FS) (target dest : String) : Option FS :=
  if env.failSymlink target dest then none
  else
    match lookupNode fs dest with
    | some _ => none
    | none =>
      match resolveFinal fs (dirname dest) with
      | some q =>
        match lookupNode fs q with
        | some .dir => some ((dest, .symlink target) :: fs)
        | _ => none
      | none => none

/-- `os.mkdir`: creates one directory; fails when the path exists or
its parent does not resolve to a directory. -/
def osMkdir (fs : FS) (p : String) : Option FS :=
  match lookupNode fs p with
  | some _ => none
  | none =>
    let d := dirname p
    if d = "" ∨ d = "/" then some ((p, FNode.dir) :: fs)
    else
      match resolveFinal fs d with
      | some q =>
        match lookupNode fs q with
        | some .dir => some ((p, FNode.dir) :: fs)
        | _ => none
      | none => none

/-- Recursive worker for `os.makedirs`: first ensure the parent exists,
then `mkdir` the path itself. -/
def makedirsAux (fs : FS) : Nat → String → Option FS
  | 0, _ => none
  | fuel + 1, p =>
    let head := dirname p
    let fs1opt :=
      if head ≠ "" ∧ head ≠ "/" ∧ osExists fs head = false then makedirsAux fs fuel head
      else some fs
    match fs1opt with
    | none => none
    | some fs1 => osMkdir fs1 p

/-- `os.makedirs`: creates the directory and any missing ancestors. -/
def osMakedirs (env : OsEnv) (fs : FS) (p : String) : Option FS :=
  if env.failMakedirs p then none else makedirsAux fs (p.data.length + 1) p

/-! ### Plugin context, options and log -/

/-- The per-entry option record after merging (`path` is `None` or a
string; the four booleans default to `False`). -/
structure Opts where
  path : Option String
  relative : Bool
  force : Bool
  relink : Bool
  create : Bool
deriving DecidableEq, Repr

/-- A partial option record: an extended-config dict or the
context-level defaults dict; present keys override. -/
structure OptsPatch where
  path : Option (Option String) := none
  relative : Option Bool := none
  force : Option Bool := none
  relink : Option Bool := none
  create : Option Bool := none
deriving DecidableEq, Repr

/-- Dict merge `{**opts, **patch}` restricted to the plugin's keys. -/
def applyPatch (o : Opts) (p : OptsPatch) : Opts :=
  { path := p.path.getD o.path
    relative := p.relative.getD o.relative
    force := p.force.getD o.force
    relink := p.relink.getD o.relink
    create := p.create.getD o.create }

/-- `_default_opts`: every boolean `False`, `path` `None`. -/
def defaultOpts : Opts :=
  { path := none, relative := false, force := false, relink := false, create := false }

/-- The value of one mapping entry: either a plain source-path string
or an extended-config dict. -/
inductive SourceSpec where
  | plain (s : String) : SourceSpec
  | ext (p : OptsPatch) : SourceSpec
deriving Repr

/-- The plugin's collaborator context: the dotbot base directory, the
library path expansions (kept abstract), `os.path.relpath` (kept
abstract), and the context-level defaults for this directive. -/
structure Ctx where
  baseDirectory : String
  expanduser : String → String
  expandvars : String → String
  relpath : String → String → String
  defaults : OptsPatch

/-- Log severities used by the plugin. -/
inductive LogLevel where
  | lowinfo : LogLevel
  | info : LogLevel
  | warning : LogLevel
  | error : LogLevel
deriving DecidableEq, Repr

/-- Mutable state threaded through the plugin: the filesystem plus the
emitted log. -/
structure St where
  fs : FS
  log : List (LogLevel × String)
deriving DecidableEq, Repr

/-- Append one log line. -/
def pushLog (st : St) (lv : LogLevel) (m : String) : St :=
  { st with log := st.log ++ [(lv, m)] }

/-! ### The plugin's methods (translated from `link_many.py`) -/

/-- `_expand_path`: `os.path.expandvars(os.path.expanduser(path))`. -/
def expandPath (ctx : Ctx) (p : String) : String :=
  ctx.expandvars (ctx.expanduser p)

/-- `_is_link`: `os.path.islink(os.path.expanduser(path))`. -/
def isLink (ctx : Ctx) (fs : FS) (p : String) : Bool :=
  osIslink fs (ctx.expanduser p)

/-- `_link_destination`: `os.readlink(self._expand_path(path))`. -/
def linkDestination (ctx : Ctx) (fs : FS) (p : String) : String :=
  osReadlink fs (expandPath ctx p)

/-- `_exists`: `os.path.exists(self._expand_path(path))`. -/
def existsP (ctx : Ctx) (fs : FS) (p : String) : Bool :=
  osExists fs (expandPath ctx p)

/-- `_relative_path`: `os.path.relpath(source, dirname(destination))`. -/
def relativePath (ctx : Ctx) (source destination : String) : String :=
  ctx.relpath source (dirname destination)

/-- `_default_source`: when `path` is falsy (`None` or `""`) derive it
from `basename(destination)` with one leading dot stripped, then join
with the base directory and expand. -/
def defaultSource (ctx : Ctx) (destination : String) (source : Option String) : String :=
  let path : String :=
    match source with
    | none => dotStrip (basename destination)
    | some s => if s = "" then dotStrip (basename destination) else s
  expandPath ctx (pjoin ctx.baseDirectory path)

/-- `_create`: make the destination directory (with parents) when the
path does not exist; report `True` otherwise. -/
def createStep (ctx : Ctx) (env : OsEnv) (st : St) (path : String) : Bool × St :=
  if ! existsP ctx st.fs path then
    match osMakedirs env st.fs path with
    | none => (false, pushLog st .warning ("Failed to create directory " ++ path))
    | some fs' => (true, { fs := fs', log := st.log ++ [(.lowinfo, "Creating directory " ++ path)] })
  else (true, st)

/-- The removal condition of `_delete` (lines 120–123): after the
`relative` transform of `source`, the path is a symbolic link with a
stored target other than `source`, or an existing non-link. -/
def deleteCond (ctx : Ctx) (fs : FS) (source path : String) (relative : Bool) : Bool :=
  let source := if relative then relativePath ctx source path else source
  (isLink ctx fs path && (linkDestination ctx fs path != source)) ||
    (existsP ctx fs path && ! isLink ctx fs path)

/-- `_delete`: remove whatever occupies `path` when it is a symbolic
link with the wrong stored target, or (under `force`) a non-link.  The
transformed `source` is used only inside the condition, factored out as
`deleteCond`. -/
def deleteStep (ctx : Ctx) (env : OsEnv) (st : St) (source path : String)
    (relative force : Bool) : Bool × St :=
  if deleteCond ctx st.fs source path relative then
    if osIslink st.fs path then
      match osUnlink env st.fs path with
      | none => (false, pushLog st .warning ("Failed to remove " ++ path))
      | some fs' => (true, { fs := fs', log := st.log ++ [(.lowinfo, "Removing " ++ path)] })
    else if force then
      if osIsdir st.fs path then
        match osRmtree env st.fs path with
        | none => (false, pushLog st .warning ("Failed to remove " ++ path))
        | some fs' => (true, { fs := fs', log := st.log ++ [(.lowinfo, "Removing " ++ path)] })
      else
        match osRemove env st.fs path with
        | none => (false, pushLog st .warning ("Failed to remove " ++ path))
        | some fs' => (true, { fs := fs', log := st.log ++ [(.lowinfo, "Removing " ++ path)] })
    else (true, st)
  else (true, st)

/-- `_link`: the per-file decision tree ensuring `link_name` is a
symbolic link to `source`. -/
def linkStep (ctx : Ctx) (env : OsEnv) (st : St) (source linkName : String)
    (relative : Bool) : Bool × St :=
  let destination := ctx.expanduser linkName
  let absoluteSource := pjoin ctx.baseDirectory source
  let source := if relative then relativePath ctx absoluteSource destination else absoluteSource
  if ! existsP ctx st.fs linkName && isLink ctx st.fs linkName &&
      (linkDestination ctx st.fs linkName != source) then
    (false, pushLog st .warning
      ("Invalid link " ++ linkName ++ " -> " ++ linkDestination ctx st.fs linkName))
  else if ! existsP ctx st.fs linkName && existsP ctx st.fs absoluteSource then
    match osSymlink env st.fs source destination with
    | none => (false, pushLog st .warning ("Linking failed " ++ linkName ++ " -> " ++ source))
    | some fs' =>
      (true, { fs := fs', log := st.log ++ [(.lowinfo, "Creating link " ++ linkName ++ " -> " ++ source)] })
  else if existsP ctx st.fs linkName && ! isLink ctx st.fs linkName then
    (false, pushLog st .warning (linkName ++ " already exists but is a regular file or directory"))
  else if isLink ctx st.fs linkName && (linkDestination ctx st.fs linkName != source) then
    (false, pushLog st .warning
      ("Incorrect link " ++ linkName ++ " -> " ++ linkDestination ctx st.fs linkName))
  else if ! existsP ctx st.fs absoluteSource then
    if isLink ctx st.fs linkName then
      (false, pushLog st .warning ("Nonexistent target " ++ linkName ++ " -> " ++ source))
    else
      (false, pushLog st .warning ("Nonexistent target for " ++ linkName ++ " : " ++ source))
  else
    (true, pushLog st .lowinfo ("Link exists " ++ linkName ++ " -> " ++ source))

/-- The merged option record for one entry (`dict(defaults)` overlaid
with the extended config, or with `path` set to a plain string). -/
def resolveOpts (defaults : Opts) : SourceSpec → Opts
  | .plain s => { defaults with path := some s }
  | .ext p => applyPatch defaults p

/-- The per-file body of the inner loop of `_process_links`:
`dst, src = join(destination, f), join(source_path, f)`; delete pass
when `force or relink`, then the link pass, each ANDed into the running
success flag. -/
def processFile (ctx : Ctx) (env : OsEnv) (relative force relink : Bool)
    (destination sourcePath : String) (acc : Bool × St) (f : String) : Bool × St :=
  let dst := pjoin destination f
  let src := pjoin sourcePath f
  let acc1 :=
    if force || relink then
      let r := deleteStep ctx env acc.2 src dst relative force
      (acc.1 && r.1, r.2)
    else acc
  let r := linkStep ctx env acc1.2 src dst relative
  (acc1.1 && r.1, r.2)

/-- The per-entry body of `_process_links`: expand the destination,
merge options, resolve the source directory, validate it, optionally
create the destination directory, then run the per-file loop. -/
def processEntry (ctx : Ctx) (env : OsEnv) (defaults : Opts) (acc : Bool × St)
    (entry : String × SourceSpec) : Bool × St :=
  let destination := expandPath ctx entry.1
  let opts := resolveOpts defaults entry.2
  let sourcePath := defaultSource ctx destination opts.path
  let warnMsg : Option String :=
    if ! existsP ctx acc.2.fs sourcePath then
      some ("Nonexistent source " ++ destination ++ " -> " ++ sourcePath)
    else if ! osIsdir acc.2.fs sourcePath then
      some ("Source must be a directory " ++ destination ++ " -> " ++ sourcePath)
    else if osListdir acc.2.fs sourcePath = [] then
      some ("Source directory is empty " ++ destination ++ " -> " ++ sourcePath)
    else none
  match warnMsg with
  | some m => (false, pushLog acc.2 .warning m)
  | none =>
    let acc1 :=
      if opts.create then
        let r := createStep ctx env acc.2 destination
        (acc.1 && r.1, r.2, r.1)
      else (acc.1, acc.2, true)
    if acc1.2.2 then
      (osListdir acc1.2.1.fs sourcePath).foldl
        (processFile ctx env opts.relative opts.force opts.relink destination sourcePath)
        (acc1.1, acc1.2.1)
    else (acc1.1, acc1.2.1)

/-- `_process_links`: merge the context defaults over the system
defaults, fold the entries, and emit the summary line. -/
def processLinks (ctx : Ctx) (env : OsEnv) (st : St)
    (links : List (String × SourceSpec)) : Bool × St :=
  let defaults := applyPatch defaultOpts ctx.defaults
  let r := links.foldl (processEntry ctx env defaults) (true, st)
  if r.1 then (true, pushLog r.2 .info "All links have been set up")
  else (false, pushLog r.2 .error "Some links were not successfully set up")

/-! ### Derived specification-level definitions -/

/-- The expected link target string of a `(source, linkName)` pair: the
relative path from the destination's directory to the (base-joined)
source when `relative` is set, the base-joined source otherwise.  This
is exactly the string `_link` computes into its local `source`. -/
def expectedLinkTarget (ctx : Ctx) (source linkName : String) (relative : Bool) : String :=
  let destination := ctx.expanduser linkName
  let absoluteSource := pjoin ctx.baseDirectory source
  if relative then relativePath ctx absoluteSource destination else absoluteSource

/-- Whether the removal that `_delete` attempts on this state errors
out: the removal condition holds and the one syscall the code would
issue (`unlink` on a link; under `force`, `rmtree` on a directory or
`remove` otherwise) fails. -/
def deleteRemovalError (ctx : Ctx) (env : OsEnv) (fs : FS) (source path : String)
    (relative force : Bool) : Bool :=
  deleteCond ctx fs source path relative &&
    (if osIslink fs path then (osUnlink env fs path).isNone
     else if force then
       if osIsdir fs path then (osRmtree env fs path).isNone
       else (osRemove env fs path).isNone
     else false)

/-- The resolved source directory of one mapping entry, exactly as
`_process_links` computes it: expand the destination, merge the
options, then apply `_default_source`. -/
def entrySourcePath (ctx : Ctx) (defaults : Opts) (d : String) (spec : SourceSpec) : String :=
  defaultSource ctx (expandPath ctx d) (resolveOpts defaults spec).path

/-! ### Basic lemmas about the model -/

theorem lookupNode_eraseKey_self (fs : FS) (p : String) :
    lookupNode (eraseKey fs p) p = none := by
  induction fs with
  | nil => rfl
  | cons kn rest ih =>
    by_cases h : kn.1 = p
    · simpa [eraseKey, List.filter_cons, h] using ih
    · simpa [eraseKey, List.filter_cons, h, lookupNode] using ih

theorem resolveFinal_file (fs : FS) (p : String) (h : lookupNode fs p = some .file) :
    resolveFinal fs p = some p := by
  simp [resolveFinal, resolvePath, h]

theorem resolveFinal_dir (fs : FS) (p : String) (h : lookupNode fs p = some .dir) :
    resolveFinal fs p = some p := by
  simp [resolveFinal, resolvePath, h]

theorem resolveFinal_none (fs : FS) (p : String) (h : lookupNode fs p = none) :
    resolveFinal fs p = none := by
  simp [resolveFinal, resolvePath, h]

theorem osIslink_of_lookup_file (fs : FS) (p : String) (h : lookupNode fs p = some .file) :
    osIslink fs p = false := by
  simp [osIslink, h]

theorem osIslink_of_lookup_none (fs : FS) (p : String) (h : lookupNode fs p = none) :
    osIslink fs p = false := by
  simp [osIslink, h]

theorem pjoin_absolute (a b : String) (h : sStarts "/" b = true) : pjoin a b = b := by
  simp [pjoin, h]

theorem osExists_of_lookup_file (fs : FS) (p : String) (h : lookupNode fs p = some .file) :
    osExists fs p = true := by
  simp [osExists, resolveFinal_file fs p h]

theorem osExists_of_lookup_none (fs : FS) (p : String) (h : lookupNode fs p = none) :
    osExists fs p = false := by
  simp [osExists, resolveFinal_none fs p h]

/-- Core no-op lemma: when the destination already is a symbolic link
whose stored target equals the expected target string and the absolute
source exists, `_link` logs "Link exists", returns `True`, and touches
nothing. -/
theorem linkStep_noop_of_correct (ctx : Ctx) (env : OsEnv) (st : St) (source linkName : String)
    (relative : Bool)
    (hex : existsP ctx st.fs linkName = true)
    (hlink : isLink ctx st.fs linkName = true)
    (htgt : linkDestination ctx st.fs linkName = expectedLinkTarget ctx source linkName relative)
    (hsrc : existsP ctx st.fs (pjoin ctx.baseDirectory source) = true) :
    linkStep ctx env st source linkName relative =
      (true, pushLog st .lowinfo
        ("Link exists " ++ linkName ++ " -> " ++ expectedLinkTarget ctx source linkName relative)) := by
  have e : (if relative then relativePath ctx (pjoin ctx.baseDirectory source) (ctx.expanduser linkName)
      else pjoin ctx.baseDirectory source) = expectedLinkTarget ctx source linkName relative := rfl
  simp only [linkStep]
  rw [e]
  simp [hex, hlink, htgt, hsrc]

theorem osIslink_of_lookup_symlink (fs : FS) (p t : String)
    (h : lookupNode fs p = some (.symlink t)) : osIslink fs p = true := by
  simp [osIslink, h]

theorem osReadlink_of_lookup_symlink (fs : FS) (p t : String)
    (h : lookupNode fs p = some (.symlink t)) : osReadlink fs p = t := by
  simp [osReadlink, h]

/-- The string `_delete` compares the stored link target against equals
the expected link target string whenever the raw source is absolute
(as it is for every pair built by `_process_links` under an absolute
base directory) and the destination is expansion-free. -/
theorem deleteSource_eq_expected (ctx : Ctx) (src linkName : String) (relative : Bool)
    (hu : ctx.expanduser linkName = linkName)
    (habsrc : sStarts "/" src = true) :
    (if relative then relativePath ctx src linkName else src) =
      expectedLinkTarget ctx src linkName relative := by
  simp [expectedLinkTarget, pjoin_absolute _ _ habsrc, hu]

/-- Core creation lemma: on a destination that does not exist at all,
with the absolute source present and the parent directory in place,
`_link` creates the link storing exactly the expected target string. -/
theorem linkStep_creates (ctx : Ctx) (env : OsEnv) (st : St) (source linkName : String)
    (relative : Bool)
    (hv : ∀ p, ctx.expandvars p = p)
    (hu : ctx.expanduser linkName = linkName)
    (hux : ctx.expanduser (pjoin ctx.baseDirectory source) = pjoin ctx.baseDirectory source)
    (hlex : lookupNode st.fs linkName = none)
    (hparent : lookupNode st.fs (dirname linkName) = some FNode.dir)
    (habs : osExists st.fs (pjoin ctx.baseDirectory source) = true)
    (hfail : env.failSymlink (expectedLinkTarget ctx source linkName relative) linkName = false) :
    linkStep ctx env st source linkName relative =
      (true, ⟨(linkName, .symlink (expectedLinkTarget ctx source linkName relative)) :: st.fs,
        st.log ++ [(.lowinfo,
          "Creating link " ++ linkName ++ " -> " ++ expectedLinkTarget ctx source linkName relative)]⟩) := by
  have e : (if relative then relativePath ctx (pjoin ctx.baseDirectory source) (ctx.expanduser linkName)
      else pjoin ctx.baseDirectory source) = expectedLinkTarget ctx source linkName relative := rfl
  have hex : existsP ctx st.fs linkName = false := by
    simp [existsP, expandPath, hv, hu, osExists_of_lookup_none st.fs linkName hlex]
  have hisl : isLink ctx st.fs linkName = false := by
    simp [isLink, hu, osIslink_of_lookup_none st.fs linkName hlex]
  have habs' : existsP ctx st.fs (pjoin ctx.baseDirectory source) = true := by
    simp [existsP, expandPath, hv, hux, habs]
  have hsym : osSymlink env st.fs (expectedLinkTarget ctx source linkName relative) linkName =
      some ((linkName, .symlink (expectedLinkTarget ctx source linkName relative)) :: st.fs) := by
    simp [osSymlink, hfail, hlex, resolveFinal_dir st.fs (dirname linkName) hparent, hparent]
  simp only [linkStep]
  rw [e]
  simp [hex, hisl, habs', hsym, hu]

/-! ### Concrete instances used by witnesses and counterexamples -/

/-- A concrete context: base directory `/base`, identity expansions,
`relpath` irrelevant (projection), no context-level defaults. -/
def ctx0 : Ctx :=
  { baseDirectory := "/base"
    expanduser := id
    expandvars := id
    relpath := fun s _ => s
    defaults := {} }

/-- Overlapping-mapping state for the idempotence counterexample:
entry `/da ← /x/s` is already correct, entry `/x ← /sb` (with `force`)
replaces the directory `/x/s` — the first entry's source — by a link. -/
def fsOverlap : FS :=
  [("/da", .dir), ("/da/a", .symlink "/x/s/a"),
   ("/x", .dir), ("/x/s", .dir), ("/x/s/a", .file),
   ("/sb", .dir), ("/sb/s", .file)]

/-- The two overlapping mapping entries (in order). -/
def linksOverlap : List (String × SourceSpec) :=
  [("/da", .plain "/x/s"),
   ("/x", .ext { path := some (some "/sb"), force := some true })]

/-- A dangling symbolic link at the destination `/home/d`. -/
def fsDangling : FS :=
  [("/home", .dir), ("/home/d", .symlink "/nowhere"),
   ("/base", .dir), ("/base/src", .dir), ("/base/src/f", .file)]

/-- A destination that already is the correct link to an existing
source file. -/
def fsCorrect : FS :=
  [("/home/u", .dir), ("/home/u/.f", .symlink "/base/d/.f"),
   ("/base/d", .dir), ("/base/d/.f", .file)]

/-- A plain regular file in the way at the destination `/home/u/f`. -/
def fsPlainFile : FS :=
  [("/home/u", .dir), ("/home/u/f", .file),
   ("/base/d", .dir), ("/base/d/f", .file)]

/-! ### The claims -/

/-- C1, counterexample: full-run idempotence fails on overlapping
entries.  On `fsOverlap` the first run of `_process_links` returns
`True` (the second entry force-replaces `/x/s`, the first entry's
source directory, with a link to a plain file), but the second run on
the resulting filesystem returns `False` because the first entry's
source is no longer a directory. -/
theorem processLinks_not_idempotent_counterexample :
    (processLinks ctx0 noErr ⟨fsOverlap, []⟩ linksOverlap).1 = true ∧
    (processLinks ctx0 noErr
      ⟨(processLinks ctx0 noErr ⟨fsOverlap, []⟩ linksOverlap).2.fs, []⟩ linksOverlap).1 = false := by
  constructor
  · decide
  · decide

/-- C1 (amended): the per-link reconciliation is idempotent: whenever
the destination is already a symbolic link whose stored target equals
the expected source string and the absolute source exists, `_link`
returns `True` and performs no filesystem mutation (it only logs "Link
exists"). -/
theorem link_idempotent_on_correct_link (ctx : Ctx) (env : OsEnv) (st : St)
    (source linkName : String) (relative : Bool)
    (hex : existsP ctx st.fs linkName = true)
    (hlink : isLink ctx st.fs linkName = true)
    (htgt : linkDestination ctx st.fs linkName = expectedLinkTarget ctx source linkName relative)
    (hsrc : existsP ctx st.fs (pjoin ctx.baseDirectory source) = true) :
    (linkStep ctx env st source linkName relative).1 = true ∧
    (linkStep ctx env st source linkName relative).2.fs = st.fs := by
  rw [linkStep_noop_of_correct ctx env st source linkName relative hex hlink htgt hsrc]
  exact ⟨rfl, rfl⟩

/-- C1, witness: a concrete already-correct link on which `_link` is a
successful no-op. -/
theorem link_idempotent_on_correct_link_witness :
    (linkStep ctx0 noErr ⟨fsCorrect, []⟩ "/base/d/.f" "/home/u/.f" false).1 = true ∧
    (linkStep ctx0 noErr ⟨fsCorrect, []⟩ "/base/d/.f" "/home/u/.f" false).2.fs = fsCorrect :=
  link_idempotent_on_correct_link ctx0 noErr ⟨fsCorrect, []⟩ "/base/d/.f" "/home/u/.f" false
    (by decide) (by decide) (by decide) (by decide)

/-- C2, counterexample: the "Invalid link" branch of `_link` is
reachable.  With a dangling symbolic link `/home/d -> /nowhere` at the
destination (`exists` is `False`, `islink` is `True`, the stored target
differs from the source string), `_link` takes the first branch: it
logs the "Invalid link" warning and returns `False`. -/
theorem invalid_link_branch_taken_counterexample :
    linkStep ctx0 noErr ⟨fsDangling, []⟩ "/base/src/f" "/home/d" false =
      (false, ⟨fsDangling, [(.warning, "Invalid link /home/d -> /nowhere")]⟩) := by
  decide

/-- C2 (amended): the first branch of the link decision tree is not
unreachable; it fires exactly in the dangling-link state: whenever the
destination is a symbolic link (`islink` true) that does not resolve
(`exists` false) and its stored target differs from the expected source
string, `_link` logs "Invalid link" and returns `False` without
creating anything. -/
theorem link_invalid_branch_on_dangling (ctx : Ctx) (env : OsEnv) (st : St)
    (source linkName : String) (relative : Bool)
    (hnex : existsP ctx st.fs linkName = false)
    (hlink : isLink ctx st.fs linkName = true)
    (htgt : linkDestination ctx st.fs linkName ≠ expectedLinkTarget ctx source linkName relative) :
    linkStep ctx env st source linkName relative =
      (false, pushLog st .warning
        ("Invalid link " ++ linkName ++ " -> " ++ linkDestination ctx st.fs linkName)) := by
  have e : (if relative then relativePath ctx (pjoin ctx.baseDirectory source) (ctx.expanduser linkName)
      else pjoin ctx.baseDirectory source) = expectedLinkTarget ctx source linkName relative := rfl
  simp only [linkStep]
  rw [e]
  simp [hnex, hlink, htgt]

/-- C2, witness: the amended statement instantiated at the concrete
dangling link. -/
theorem link_invalid_branch_on_dangling_witness :
    linkStep ctx0 noErr ⟨fsDangling, []⟩ "/base/src/f" "/home/d" false =
      (false, pushLog ⟨fsDangling, []⟩ .warning
        ("Invalid link /home/d -> " ++ linkDestination ctx0 fsDangling "/home/d")) :=
  link_invalid_branch_on_dangling ctx0 noErr ⟨fsDangling, []⟩ "/base/src/f" "/home/d" false
    (by decide) (by decide) (by decide)

/-- C3: when `destination/f` pre-exists as a non-link (`exists` true,
`islink` false) and both `force` and `relink` are `False`, the per-file
step invokes no delete, performs no filesystem mutation, logs the
"already exists" warning, and its contribution makes the running
success flag `False` whatever it was before. -/
theorem plain_file_no_force_fails_untouched (ctx : Ctx) (env : OsEnv) (relative : Bool)
    (destination sourcePath f : String) (success : Bool) (st : St)
    (hex : existsP ctx st.fs (pjoin destination f) = true)
    (hnl : isLink ctx st.fs (pjoin destination f) = false) :
    processFile ctx env relative false false destination sourcePath (success, st) f =
      (false, pushLog st .warning
        (pjoin destination f ++ " already exists but is a regular file or directory")) := by
  simp [processFile, linkStep, hex, hnl]

/-- C3, witness: a concrete plain file at the destination with
`force=relink=False`; the step fails and the filesystem is unchanged. -/
theorem plain_file_no_force_fails_untouched_witness :
    processFile ctx0 noErr false false false "/home/u" "/base/d" (true, ⟨fsPlainFile, []⟩) "f" =
      (false, pushLog ⟨fsPlainFile, []⟩ .warning
        (pjoin "/home/u" "f" ++ " already exists but is a regular file or directory")) :=
  plain_file_no_force_fails_untouched ctx0 noErr false "/home/u" "/base/d" "f" true
    ⟨fsPlainFile, []⟩ (by decide) (by decide)

/-- C8: default source derivation.  With a falsy `path` (`None` or the
empty string) the effective source is the expansion of the base
directory joined with `basename(destination)` with exactly one leading
dot stripped; with a non-empty `path` it is the expansion of the base
directory joined with that path. -/
theorem default_source_derivation (ctx : Ctx) (d : String) :
    (defaultSource ctx d none =
        expandPath ctx (pjoin ctx.baseDirectory (dotStrip (basename d))) ∧
      defaultSource ctx d (some "") =
        expandPath ctx (pjoin ctx.baseDirectory (dotStrip (basename d)))) ∧
    ∀ s : String, s ≠ "" →
      defaultSource ctx d (some s) = expandPath ctx (pjoin ctx.baseDirectory s) := by
  refine ⟨⟨rfl, rfl⟩, fun s hs => ?_⟩
  simp [defaultSource, hs]

/-- C8, witness: destination `/home/u/.vimrc-dir` with no `path`
resolves to `/base/vimrc-dir` (dot stripped), and an explicit non-empty
path is joined as given. -/
theorem default_source_derivation_witness :
    defaultSource ctx0 "/home/u/.vimrc-dir" none = "/base/vimrc-dir" ∧
    defaultSource ctx0 "/home/u/.vimrc-dir" (some "custom") = "/base/custom" := by
  constructor
  · rw [(default_source_derivation ctx0 "/home/u/.vimrc-dir").1.1]
    decide
  · rw [(default_source_derivation ctx0 "/home/u/.vimrc-dir").2 "custom" (by decide)]
    decide

/-- C10: `_create` reports success without any filesystem operation
whenever the destination path exists — whatever kind of node it is —
so `create=True` does not guarantee that the destination is a directory
afterwards. -/
theorem create_noop_when_exists (ctx : Ctx) (env : OsEnv) (st : St) (p : String)
    (hex : existsP ctx st.fs p = true) :
    createStep ctx env st p = (true, st) := by
  simp [createStep, hex]

/-- C10, witness: `/p` exists as a regular file (not a directory) and
`_create` still returns `True` and changes nothing. -/
theorem create_noop_when_exists_witness :
    createStep ctx0 noErr ⟨[("/p", FNode.file)], []⟩ "/p" = (true, ⟨[("/p", FNode.file)], []⟩) :=
  create_noop_when_exists ctx0 noErr ⟨[("/p", FNode.file)], []⟩ "/p" (by decide)

/-- C4: for a destination occupied by a regular file under `force`,
the delete step removes the file and returns `True`, and the following
link step creates a symbolic link storing the expected target string
and returns `True` (assuming no injected OS error, an expansion-free
destination, a surviving parent directory, and a surviving absolute
source). -/
theorem force_replaces_plain_file (ctx : Ctx) (env : OsEnv) (st : St) (src dst : String)
    (relative : Bool)
    (hv : ∀ p, ctx.expandvars p = p)
    (hu : ctx.expanduser dst = dst)
    (hux : ctx.expanduser (pjoin ctx.baseDirectory src) = pjoin ctx.baseDirectory src)
    (hfile : lookupNode st.fs dst = some FNode.file)
    (hrem : env.failRemove dst = false)
    (hsym : env.failSymlink (expectedLinkTarget ctx src dst relative) dst = false)
    (hparent : lookupNode (eraseKey st.fs dst) (dirname dst) = some FNode.dir)
    (habs : osExists (eraseKey st.fs dst) (pjoin ctx.baseDirectory src) = true) :
    deleteStep ctx env st src dst relative true =
      (true, ⟨eraseKey st.fs dst, st.log ++ [(.lowinfo, "Removing " ++ dst)]⟩) ∧
    linkStep ctx env ⟨eraseKey st.fs dst, st.log ++ [(.lowinfo, "Removing " ++ dst)]⟩
        src dst relative =
      (true, ⟨(dst, .symlink (expectedLinkTarget ctx src dst relative)) :: eraseKey st.fs dst,
        (st.log ++ [(.lowinfo, "Removing " ++ dst)]) ++
          [(.lowinfo, "Creating link " ++ dst ++ " -> " ++ expectedLinkTarget ctx src dst relative)]⟩) := by
  constructor
  · have hcond : deleteCond ctx st.fs src dst relative = true := by
      simp [deleteCond, isLink, hu, osIslink_of_lookup_file _ _ hfile, existsP, expandPath, hv,
        osExists_of_lookup_file _ _ hfile]
    simp [deleteStep, hcond, osIslink_of_lookup_file _ _ hfile, osIsdir,
      resolveFinal_file _ _ hfile, hfile, osRemove, hrem]
  · exact linkStep_creates ctx env ⟨eraseKey st.fs dst, st.log ++ [(.lowinfo, "Removing " ++ dst)]⟩
      src dst relative hv hu hux (lookupNode_eraseKey_self st.fs dst) hparent habs hsym

/-- C4, witness: the regular file `/home/u/f` under `force` is removed
and replaced by a link to `/base/d/f`. -/
theorem force_replaces_plain_file_witness :
    deleteStep ctx0 noErr ⟨fsPlainFile, []⟩ "/base/d/f" "/home/u/f" false true =
      (true, ⟨eraseKey fsPlainFile "/home/u/f", [(.lowinfo, "Removing /home/u/f")]⟩) ∧
    linkStep ctx0 noErr ⟨eraseKey fsPlainFile "/home/u/f", [(.lowinfo, "Removing /home/u/f")]⟩
        "/base/d/f" "/home/u/f" false =
      (true, ⟨("/home/u/f", .symlink (expectedLinkTarget ctx0 "/base/d/f" "/home/u/f" false)) ::
          eraseKey fsPlainFile "/home/u/f",
        [(.lowinfo, "Removing /home/u/f"),
         (.lowinfo, "Creating link /home/u/f -> " ++
            expectedLinkTarget ctx0 "/base/d/f" "/home/u/f" false)]⟩) :=
  force_replaces_plain_file ctx0 noErr ⟨fsPlainFile, []⟩ "/base/d/f" "/home/u/f" false
    (fun _ => rfl) rfl rfl (by decide) rfl rfl (by decide) (by decide)

/-- C5: the expected-target computation.  (a) A newly created link
stores exactly `expectedLinkTarget`: the relative path from the
destination's directory to the base-joined source when `relative` is
set, the base-joined (absolute) source otherwise.  (b) `_delete`
compares an existing link's stored target against the same string: a
matching stored target means no removal and success.  (c) `_link`
compares against the same string as well: a matching stored target
with existing source reports success without mutation. -/
theorem expected_target_governs_steps (ctx : Ctx) (env : OsEnv) (st : St)
    (src linkName : String) (relative force : Bool)
    (hv : ∀ p, ctx.expandvars p = p)
    (hu : ctx.expanduser linkName = linkName)
    (hux : ctx.expanduser (pjoin ctx.baseDirectory src) = pjoin ctx.baseDirectory src)
    (habsrc : sStarts "/" src = true) :
    (∀ st1 : St, lookupNode st1.fs linkName = none →
      lookupNode st1.fs (dirname linkName) = some FNode.dir →
      osExists st1.fs (pjoin ctx.baseDirectory src) = true →
      env.failSymlink (expectedLinkTarget ctx src linkName relative) linkName = false →
      linkStep ctx env st1 src linkName relative =
        (true, ⟨(linkName, .symlink (expectedLinkTarget ctx src linkName relative)) :: st1.fs,
          st1.log ++ [(.lowinfo,
            "Creating link " ++ linkName ++ " -> " ++
              expectedLinkTarget ctx src linkName relative)]⟩)) ∧
    (lookupNode st.fs linkName = some (.symlink (expectedLinkTarget ctx src linkName relative)) →
      deleteStep ctx env st src linkName relative force = (true, st)) ∧
    (lookupNode st.fs linkName = some (.symlink (expectedLinkTarget ctx src linkName relative)) →
      osExists st.fs linkName = true →
      osExists st.fs (pjoin ctx.baseDirectory src) = true →
      (linkStep ctx env st src linkName relative).1 = true ∧
      (linkStep ctx env st src linkName relative).2.fs = st.fs) := by
  refine ⟨fun st1 hlex hparent habs hfail =>
    linkStep_creates ctx env st1 src linkName relative hv hu hux hlex hparent habs hfail,
    fun hstored => ?_, fun hstored hex habs => ?_⟩
  · have hcond : deleteCond ctx st.fs src linkName relative = false := by
      simp only [deleteCond]
      rw [deleteSource_eq_expected ctx src linkName relative hu habsrc]
      simp [isLink, hu, osIslink_of_lookup_symlink _ _ _ hstored, linkDestination, expandPath,
        hv, osReadlink_of_lookup_symlink _ _ _ hstored]
    simp [deleteStep, hcond]
  · exact link_idempotent_on_correct_link ctx env st src linkName relative
      (by simp [existsP, expandPath, hv, hu, hex])
      (by simp [isLink, hu, osIslink_of_lookup_symlink _ _ _ hstored])
      (by simp [linkDestination, expandPath, hv, hu,
        osReadlink_of_lookup_symlink _ _ _ hstored])
      (by simp [existsP, expandPath, hv, hux, habs])

/-- C5, witness: with `relative=False` the created link stores the
absolute base-joined source; a stored target equal to the expected
string makes the delete step a successful no-op and the link step a
successful no-op as well. -/
theorem expected_target_governs_steps_witness :
    linkStep ctx0 noErr ⟨[("/home/u", FNode.dir), ("/base/d", FNode.dir), ("/base/d/f", FNode.file)], []⟩
        "/base/d/f" "/home/u/f" false =
      (true, ⟨[("/home/u/f", .symlink (expectedLinkTarget ctx0 "/base/d/f" "/home/u/f" false)),
          ("/home/u", FNode.dir), ("/base/d", FNode.dir), ("/base/d/f", FNode.file)],
        [(.lowinfo, "Creating link /home/u/f -> " ++
            expectedLinkTarget ctx0 "/base/d/f" "/home/u/f" false)]⟩) ∧
    deleteStep ctx0 noErr ⟨fsCorrect, []⟩ "/base/d/.f" "/home/u/.f" false true = (true, ⟨fsCorrect, []⟩) := by
  constructor
  · exact (expected_target_governs_steps ctx0 noErr
      ⟨[("/home/u", FNode.dir), ("/base/d", FNode.dir), ("/base/d/f", FNode.file)], []⟩
      "/base/d/f" "/home/u/f" false true (fun _ => rfl) rfl rfl (by decide)).1
      ⟨[("/home/u", FNode.dir), ("/base/d", FNode.dir), ("/base/d/f", FNode.file)], []⟩
      (by decide) (by decide) (by decide) rfl
  · exact (expected_target_governs_steps ctx0 noErr ⟨fsCorrect, []⟩
      "/base/d/.f" "/home/u/.f" false true (fun _ => rfl) rfl rfl (by decide)).2.1 (by decide)

/-- C6: `_delete` returns `False` exactly when the one removal it
attempts fails at the OS level (`deleteRemovalError`); moreover when no
removal is needed, or the path is a non-link and `force` is unset, it
returns `True` with the state untouched. -/
theorem delete_false_iff_removal_error (ctx : Ctx) (env : OsEnv) (st : St)
    (source path : String) (relative force : Bool) :
    ((deleteStep ctx env st source path relative force).1 = false ↔
      deleteRemovalError ctx env st.fs source path relative force = true) ∧
    (deleteCond ctx st.fs source path relative = false ∨
        (osIslink st.fs path = false ∧ force = false) →
      deleteStep ctx env st source path relative force = (true, st)) := by
  constructor
  · cases hcond : deleteCond ctx st.fs source path relative with
    | false => simp [deleteStep, deleteRemovalError, hcond]
    | true =>
      cases hl : osIslink st.fs path with
      | true =>
        cases hun : osUnlink env st.fs path <;>
          simp [deleteStep, deleteRemovalError, hcond, hl, hun]
      | false =>
        cases hf : force with
        | false => simp [deleteStep, deleteRemovalError, hcond, hl, hf]
        | true =>
          cases hd : osIsdir st.fs path with
          | true =>
            cases hrt : osRmtree env st.fs path <;>
              simp [deleteStep, deleteRemovalError, hcond, hl, hf, hd, hrt]
          | false =>
            cases hrm : osRemove env st.fs path <;>
              simp [deleteStep, deleteRemovalError, hcond, hl, hf, hd, hrm]
  · rintro (hcond | ⟨hl, hf⟩)
    · simp [deleteStep, hcond]
    · cases hcond : deleteCond ctx st.fs source path relative with
      | false => simp [deleteStep, hcond]
      | true => simp [deleteStep, hcond, hl, hf]

/-- C6, witness: a non-link occupying the destination with
`force=False` triggers no removal: `_delete` returns `True` and leaves
the state untouched, and indeed no removal error is reported. -/
theorem delete_false_iff_removal_error_witness :
    deleteStep ctx0 noErr ⟨fsPlainFile, []⟩ "/base/d/f" "/home/u/f" false false =
      (true, ⟨fsPlainFile, []⟩) :=
  (delete_false_iff_removal_error ctx0 noErr ⟨fsPlainFile, []⟩ "/base/d/f" "/home/u/f"
    false false).2 (Or.inr ⟨by decide, rfl⟩)

/-- C7: an entry whose resolved source does not exist, is not a
directory, or is an empty directory makes the whole-run flag `False`,
appends exactly one warning, performs no filesystem mutation for the
entry, and the fold goes on to the next entry with the state
otherwise unchanged. -/
theorem invalid_source_entry_fails (ctx : Ctx) (env : OsEnv) (defaults : Opts)
    (success : Bool) (st : St) (d : String) (spec : SourceSpec)
    (hbad : ¬ (existsP ctx st.fs (entrySourcePath ctx defaults d spec) = true ∧
        osIsdir st.fs (entrySourcePath ctx defaults d spec) = true ∧
        osListdir st.fs (entrySourcePath ctx defaults d spec) ≠ [])) :
    (processEntry ctx env defaults (success, st) (d, spec)).1 = false ∧
    (processEntry ctx env defaults (success, st) (d, spec)).2.fs = st.fs ∧
    ∃ m, (processEntry ctx env defaults (success, st) (d, spec)).2.log =
      st.log ++ [(LogLevel.warning, m)] := by
  cases hA : existsP ctx st.fs (entrySourcePath ctx defaults d spec) with
  | false =>
    have heq : processEntry ctx env defaults (success, st) (d, spec) =
        (false, pushLog st .warning
          ("Nonexistent source " ++ expandPath ctx d ++ " -> " ++
            entrySourcePath ctx defaults d spec)) := by
      simp only [entrySourcePath] at hA ⊢
      simp [processEntry, hA]
    rw [heq]
    exact ⟨rfl, rfl, _, rfl⟩
  | true =>
    cases hB : osIsdir st.fs (entrySourcePath ctx defaults d spec) with
    | false =>
      have heq : processEntry ctx env defaults (success, st) (d, spec) =
          (false, pushLog st .warning
            ("Source must be a directory " ++ expandPath ctx d ++ " -> " ++
              entrySourcePath ctx defaults d spec)) := by
        simp only [entrySourcePath] at hA hB ⊢
        simp [processEntry, hA, hB]
      rw [heq]
      exact ⟨rfl, rfl, _, rfl⟩
    | true =>
      cases hC : osListdir st.fs (entrySourcePath ctx defaults d spec) with
      | nil =>
        have heq : processEntry ctx env defaults (success, st) (d, spec) =
            (false, pushLog st .warning
              ("Source directory is empty " ++ expandPath ctx d ++ " -> " ++
                entrySourcePath ctx defaults d spec)) := by
          simp only [entrySourcePath] at hA hB hC ⊢
          simp [processEntry, hA, hB, hC]
        rw [heq]
        exact ⟨rfl, rfl, _, rfl⟩
      | cons a l => exact absurd ⟨hA, hB, by simp [hC]⟩ hbad

/-- C7, witness: an empty source directory `/base/empty` fails its
entry with one warning and no mutation. -/
theorem invalid_source_entry_fails_witness :
    (processEntry ctx0 noErr defaultOpts (true, ⟨[("/base/empty", FNode.dir)], []⟩)
      ("/dst", .plain "/base/empty")).1 = false ∧
    (processEntry ctx0 noErr defaultOpts (true, ⟨[("/base/empty", FNode.dir)], []⟩)
      ("/dst", .plain "/base/empty")).2.fs = [("/base/empty", FNode.dir)] ∧
    ∃ m, (processEntry ctx0 noErr defaultOpts (true, ⟨[("/base/empty", FNode.dir)], []⟩)
      ("/dst", .plain "/base/empty")).2.log = [] ++ [(LogLevel.warning, m)] :=
  invalid_source_entry_fails ctx0 noErr defaultOpts true ⟨[("/base/empty", FNode.dir)], []⟩
    "/dst" (.plain "/base/empty") (by decide)

/-- C9: target comparison is literal string equality, never path
resolution.  A destination holding a symbolic link whose stored target
`t` differs as a string from the expected target (even if it resolves
to the same file): the delete step unlinks it and succeeds, and the
link step reports "Incorrect link" and fails. -/
theorem literal_target_comparison (ctx : Ctx) (env : OsEnv) (st : St)
    (src linkName t : String) (relative force : Bool)
    (hv : ∀ p, ctx.expandvars p = p)
    (hu : ctx.expanduser linkName = linkName)
    (habsrc : sStarts "/" src = true)
    (hstored : lookupNode st.fs linkName = some (.symlink t))
    (hne : t ≠ expectedLinkTarget ctx src linkName relative) :
    (env.failUnlink linkName = false →
      deleteStep ctx env st src linkName relative force =
        (true, ⟨eraseKey st.fs linkName, st.log ++ [(.lowinfo, "Removing " ++ linkName)]⟩)) ∧
    (osExists st.fs linkName = true →
      linkStep ctx env st src linkName relative =
        (false, pushLog st .warning ("Incorrect link " ++ linkName ++ " -> " ++ t))) := by
  have hrd : linkDestination ctx st.fs linkName = t := by
    simp [linkDestination, expandPath, hv, hu, osReadlink_of_lookup_symlink _ _ _ hstored]
  have hil : isLink ctx st.fs linkName = true := by
    simp [isLink, hu, osIslink_of_lookup_symlink _ _ _ hstored]
  constructor
  · intro hfail
    have hcond : deleteCond ctx st.fs src linkName relative = true := by
      simp only [deleteCond]
      rw [deleteSource_eq_expected ctx src linkName relative hu habsrc]
      simp [hil, hrd, hne]
    have hun : osUnlink env st.fs linkName = some (eraseKey st.fs linkName) := by
      simp [osUnlink, hfail, hstored]
    simp [deleteStep, hcond, osIslink_of_lookup_symlink _ _ _ hstored, hun]
  · intro hex
    have hex' : existsP ctx st.fs linkName = true := by
      simp [existsP, expandPath, hv, hu, hex]
    have e : (if relative then relativePath ctx (pjoin ctx.baseDirectory src) (ctx.expanduser linkName)
        else pjoin ctx.baseDirectory src) = expectedLinkTarget ctx src linkName relative := rfl
    simp only [linkStep]
    rw [e]
    simp [hex', hil, hrd, hne]

/-- C9, witness: the stored target `/alias` resolves (via a second
link) to the same source file `/base/d/f`, yet because it differs as a
string from the expected `/base/d/f` the delete step removes it and the
link step reports "Incorrect link". -/
theorem literal_target_comparison_witness :
    (deleteStep ctx0 noErr
        ⟨[("/home/u", FNode.dir), ("/home/u/f", FNode.symlink "/alias"),
          ("/alias", FNode.symlink "/base/d/f"), ("/base/d", FNode.dir),
          ("/base/d/f", FNode.file)], []⟩ "/base/d/f" "/home/u/f" false true =
      (true, ⟨eraseKey [("/home/u", FNode.dir), ("/home/u/f", FNode.symlink "/alias"),
          ("/alias", FNode.symlink "/base/d/f"), ("/base/d", FNode.dir),
          ("/base/d/f", FNode.file)] "/home/u/f",
        [(.lowinfo, "Removing /home/u/f")]⟩)) ∧
    (linkStep ctx0 noErr
        ⟨[("/home/u", FNode.dir), ("/home/u/f", FNode.symlink "/alias"),
          ("/alias", FNode.symlink "/base/d/f"), ("/base/d", FNode.dir),
          ("/base/d/f", FNode.file)], []⟩ "/base/d/f" "/home/u/f" false =
      (false, pushLog ⟨[("/home/u", FNode.dir), ("/home/u/f", FNode.symlink "/alias"),
          ("/alias", FNode.symlink "/base/d/f"), ("/base/d", FNode.dir),
          ("/base/d/f", FNode.file)], []⟩ .warning "Incorrect link /home/u/f -> /alias")) := by
  have h := literal_target_comparison ctx0 noErr
    ⟨[("/home/u", FNode.dir), ("/home/u/f", FNode.symlink "/alias"),
      ("/alias", FNode.symlink "/base/d/f"), ("/base/d", FNode.dir),
      ("/base/d/f", FNode.file)], []⟩ "/base/d/f" "/home/u/f" "/alias" false true
    (fun _ => rfl) rfl (by decide) (by decide) (by decide)
  exact ⟨h.1 rfl, h.2 (by decide)⟩

end LinkMany
